import Mathlib

/-!
Verification of the `next-svgl` component generator.

A shallow embedding of the `add` command (src/commands/add.ts) of the
`next-svgl` CLI, together with proofs about its selection, slug derivation,
markup sanitisation, generation loop and aggregate-export rebuild.

Strings are modelled as `List Char`.  JavaScript string operations
(`toLowerCase`, `trim`, first-occurrence `replace`, `endsWith`, `includes`)
are embedded for the ASCII range actually exercised by the tool.  Network
fetches (`axios.get`) are modelled by an oracle `Fetch` returning `none` on a
thrown error; the output directory is an association list of
(file name, file content) pairs; `fs.writeFile` is modelled as total.
-/

/-- ASCII model of JavaScript `String.prototype.toLowerCase` on one character:
code points 65..90 (`A`..`Z`) are shifted by 32, everything else is kept. -/
def jsToLower (c : Char) : Char :=
  if h : 65 ≤ c.toNat ∧ c.toNat ≤ 90 then
    Char.ofNatAux (c.toNat + 32) (Or.inl (by omega))
  else c

/-- Model of `title.toLowerCase()` on a whole string. -/
def lowerChars (s : List Char) : List Char := s.map jsToLower

/-- The character class `[a-z0-9]` of the slug regexes in add.ts. -/
def isLowerAlnum (c : Char) : Bool :=
  decide (97 ≤ c.toNat ∧ c.toNat ≤ 122) || decide (48 ≤ c.toNat ∧ c.toNat ≤ 57)

/-- The character class `[a-zA-Z0-9]` of the component-name regex
(`title.replace(/[^a-zA-Z0-9]/g, '')`, add.ts line 141). -/
def isAlnumAscii (c : Char) : Bool :=
  decide (97 ≤ c.toNat ∧ c.toNat ≤ 122) || decide (65 ≤ c.toNat ∧ c.toNat ≤ 90) ||
    decide (48 ≤ c.toNat ∧ c.toNat ≤ 57)

/-- The regex class `\w` used by `/export const (\w+):/` (add.ts line 347). -/
def isWordChar (c : Char) : Bool :=
  isAlnumAscii c || decide (c = '_')

/-- ASCII whitespace removed by JavaScript `String.prototype.trim`. -/
def isJsSpace (c : Char) : Bool :=
  decide (c.toNat = 32 ∨ c.toNat = 9 ∨ c.toNat = 10 ∨ c.toNat = 13 ∨
    c.toNat = 11 ∨ c.toNat = 12)

/-- Model of `s.trim()`: drop whitespace from both ends. -/
def trimChars (s : List Char) : List Char :=
  ((s.dropWhile isJsSpace).reverse.dropWhile isJsSpace).reverse

/-- Does the pattern occur at the very start?  (Left-to-right literal match.) -/
def startsWithChars : List Char → List Char → Bool
  | [], _ => true
  | _ :: _, [] => false
  | p :: ps, c :: cs => decide (p = c) && startsWithChars ps cs

/-- JavaScript `String.prototype.includes`: does `pat` occur anywhere? -/
def containsChars (pat : List Char) : List Char → Bool
  | [] => startsWithChars pat []
  | c :: cs => startsWithChars pat (c :: cs) || containsChars pat cs

/-- JavaScript `String.prototype.endsWith`. -/
def endsWithChars (suf s : List Char) : Bool :=
  startsWithChars suf.reverse s.reverse

/-- Model of `s.replace(pat, repl)` with a plain-string (or fixed-literal regex)
pattern: replace the first occurrence only, as in JavaScript. -/
def replaceFirst (pat repl : List Char) : List Char → List Char
  | [] => []
  | c :: cs =>
    if startsWithChars pat (c :: cs) then repl ++ List.drop pat.length (c :: cs)
    else c :: replaceFirst pat repl cs

/-- Drop everything up to and including the first `"`; `none` if there is no
quote (so the attribute regex below has no closing delimiter and fails). -/
def dropThroughQuote : List Char → Option (List Char)
  | [] => none
  | c :: cs => if c = '"' then some cs else dropThroughQuote cs

/-- Model of `s.replace(/pat[^"]*"/, '')` for `pat` ∈ {`width="`, `height="`}: remove
the first occurrence of the attribute (pattern literal, then the shortest run
of non-quote characters closed by `"`).  If a candidate position has no
closing quote the regex engine moves on, exactly as modelled here. -/
def removeFirstAttr (pat : List Char) : List Char → List Char
  | [] => []
  | c :: cs =>
    if startsWithChars pat (c :: cs) then
      match dropThroughQuote (List.drop pat.length (c :: cs)) with
      | some rest => rest
      | none => c :: removeFirstAttr pat cs
    else c :: removeFirstAttr pat cs

/-- The helper `extractSvgContent` (add.ts lines 389-395): trim, then drop the first
fixed `width="..."` attribute, then the first fixed `height="..."` one. -/
def extractSvgContent (s : List Char) : List Char :=
  removeFirstAttr (("height=\"").data) (removeFirstAttr (("width=\"").data) (trimChars s))

/-- State machine for `title.replace(/[^a-z0-9]+/g, '-')`: a maximal run of
characters outside `[a-z0-9]` becomes a single `-`.  The boolean records
whether the previous character was part of such a run. -/
def collapseAux : Bool → List Char → List Char
  | _, [] => []
  | inRun, c :: cs =>
    if isLowerAlnum c then c :: collapseAux false cs
    else if inRun then collapseAux true cs
    else '-' :: collapseAux true cs

/-- One step of `.replace(/^-|-$/g, '')`: drop a single leading dash. -/
def dropLeadDash (l : List Char) : List Char :=
  match l with
  | c :: rest => if c = '-' then rest else c :: rest
  | [] => []

/-- Model of `.replace(/^-|-$/g, '')`: drop one leading and one trailing dash. -/
def trimSlugDashes (l : List Char) : List Char :=
  (dropLeadDash (dropLeadDash l).reverse).reverse

/-- The file slug (`kebabName` / `fileName` in add.ts, lines 53-56, 143-146):
`title.toLowerCase().replace(/[^a-z0-9]+/g, '-').replace(/^-|-$/g, '')`. -/
def svgSlug (title : List Char) : List Char :=
  trimSlugDashes (collapseAux false (lowerChars title))

/-- The symbol name (`componentName`, add.ts line 141):
`title.replace(/[^a-zA-Z0-9]/g, '')`. -/
def componentNameOf (title : List Char) : List Char :=
  title.filter isAlnumAscii

/-- The `route` / `wordmark` shape: a single markup URL, or a `ThemeOptions`
record with `dark` and `light` URLs (src/types/index.ts). -/
inductive Route where
  | single : List Char → Route
  | themed : (dark light : List Char) → Route
deriving DecidableEq

/-- The test `typeof svg.route !== 'string'`. -/
def isThemedRoute : Route → Bool
  | Route.single _ => false
  | Route.themed _ _ => true

/-- A remote catalog entry (`iSVG`).  The fields `id`, `category`, `url` and
`brandUrl` are used only for interactive display and are omitted here. -/
structure ISVG where
  title : List Char
  route : Route
  wordmark : Option Route
deriving DecidableEq

/-- One entry of the `createdComponents` / `allComponents` bookkeeping
arrays (add.ts lines 230-234, 313-318, 349-354). -/
structure CompRec where
  name : List Char
  fileName : List Char
  hasDarkLight : Bool
  isWordmark : Bool
deriving DecidableEq

/-- Exact-match predicate of the selection filter (add.ts lines 51-61):
the already-lowercased caller token is lowercased again and compared for
whole-string equality with the slug or the lowercased title. -/
def matchesName (svg : ISVG) (n : List Char) : Bool :=
  decide (svgSlug svg.title = lowerChars n) || decide (lowerChars svg.title = lowerChars n)

/-- The filter `selectedSVGs = svgs.filter(...)` in exact-match mode (add.ts 47-61). -/
def selectSVGs (svgs : List ISVG) (args : List (List Char)) : List ISVG :=
  svgs.filter (fun svg => (args.map lowerChars).any (fun n => matchesName svg n))

/-- The `foundNames` list of the reporting pass (add.ts lines 87-95): lowercased title
and slug of every matched icon, flattened in that order. -/
def foundNamesOf (svgs : List ISVG) (args : List (List Char)) : List (List Char) :=
  (selectSVGs svgs args).flatMap (fun svg => [lowerChars svg.title, svgSlug svg.title])

/-- The `notFound` list (add.ts lines 97-100): requested tokens with no entry in
`foundNames`. -/
def notFoundOf (svgs : List ISVG) (args : List (List Char)) : List (List Char) :=
  (args.map lowerChars).filter
    (fun n => !((foundNamesOf svgs args).any (fun f => decide (f = lowerChars n))))

/-- Replacement text spliced over `<svg` in the single-variant templates
(add.ts lines 174, 262, 296, 298). -/
def svgPropsInline : List Char :=
  ("<svg className=\x7bclassName\x7d width=\x7bwidth\x7d height=\x7bheight\x7d \x7b...props\x7d").data

/-- Replacement text spliced over `<svg` in the themed route template
(add.ts lines 216, 218). -/
def svgPropsMultiline : List Char :=
  ("<svg\n      className=\x7bclassName\x7d\n      width=\x7bwidth\x7d\n      height=\x7bheight\x7d\n      \x7b...props\x7d").data

/-- The single-route component template (add.ts lines 159-177). -/
def singleTemplate (name markup : List Char) : List Char :=
  ("import React from \x27react\x27;\n\ninterface ").data ++ name ++
  ("Props \x7b\n  className?: string;\n  width?: number | string;\n  height?: number | string;\n\x7d\n\nexport const ").data ++
  name ++ (": React.FC<").data ++ name ++
  ("Props> = (\x7b\n  className,\n  width = 24,\n  height = 24,\n  ...props\n\x7d) => \x7b\n  return (\n    ").data ++
  replaceFirst (("<svg").data) svgPropsInline markup ++
  ("\n  );\n\x7d;\n").data

/-- The light/dark themed component template (add.ts lines 189-221). -/
def themedTemplate (name lightMarkup darkMarkup : List Char) : List Char :=
  ("import React, \x7b useEffect, useState \x7d from \x27react\x27;\nimport \x7b useTheme \x7d from \x27next-themes\x27;\n\ninterface ").data ++
  name ++
  ("Props \x7b\n  className?: string;\n  width?: number | string;\n  height?: number | string;\n\x7d\n\nexport const ").data ++
  name ++ (": React.FC<").data ++ name ++
  ("Props> = (\x7b\n  className,\n  width = 24,\n  height = 24,\n  ...props\n\x7d) => \x7b\n  const \x7b resolvedTheme \x7d = useTheme();\n  // Add client-side only rendering to avoid hydration mismatch\n  const [mounted, setMounted] = useState(false);\n  \n  useEffect(() => \x7b\n    setMounted(true);\n  \x7d, []);\n  \n  // During SSR and initial client render, default to light theme\n  const isDark = mounted && resolvedTheme === \x27dark\x27;\n\n  return isDark ? (\n    ").data ++
  replaceFirst (("<svg").data) svgPropsMultiline darkMarkup ++
  ("\n  ) : (\n    ").data ++
  replaceFirst (("<svg").data) svgPropsMultiline lightMarkup ++
  ("\n  );\n\x7d;\n").data

/-- The single wordmark template (add.ts lines 247-265): same as the base
single template but with symbol suffix `Wordmark` and default width 100. -/
def wordmarkSingleTemplate (name markup : List Char) : List Char :=
  ("import React from \x27react\x27;\n\ninterface ").data ++ name ++
  ("WordmarkProps \x7b\n  className?: string;\n  width?: number | string;\n  height?: number | string;\n\x7d\n\nexport const ").data ++
  name ++ ("Wordmark: React.FC<").data ++ name ++
  ("WordmarkProps> = (\x7b\n  className,\n  width = 100,\n  height = 24,\n  ...props\n\x7d) => \x7b\n  return (\n    ").data ++
  replaceFirst (("<svg").data) svgPropsInline markup ++
  ("\n  );\n\x7d;\n").data

/-- The themed wordmark template (add.ts lines 277-301).  Note: unlike the
base themed template it has no `mounted` state and no `useEffect` deferral —
`isDark` is computed directly from `resolvedTheme`. -/
def wordmarkThemedTemplate (name lightMarkup darkMarkup : List Char) : List Char :=
  ("import React from \x27react\x27;\nimport \x7b useTheme \x7d from \x27next-themes\x27;\n\ninterface ").data ++
  name ++
  ("WordmarkProps \x7b\n  className?: string;\n  width?: number | string;\n  height?: number | string;\n\x7d\n\nexport const ").data ++
  name ++ ("Wordmark: React.FC<").data ++ name ++
  ("WordmarkProps> = (\x7b\n  className,\n  width = 100,\n  height = 24,\n  ...props\n\x7d) => \x7b\n  const \x7b resolvedTheme \x7d = useTheme();\n  const isDark = resolvedTheme === \x27dark\x27;\n\n  return isDark ? (\n    ").data ++
  replaceFirst (("<svg").data) svgPropsInline darkMarkup ++
  ("\n  ) : (\n    ").data ++
  replaceFirst (("<svg").data) svgPropsInline lightMarkup ++
  ("\n  );\n\x7d;\n").data

/-- A network oracle: `axios.get` returning the response body, or `none`
when the request throws. -/
abbrev Fetch : Type := List Char → Option (List Char)

/-- The output directory `components/svgl` as (file name, content) pairs. -/
abbrev FS : Type := List (List Char × List Char)

/-- Model of `fs.writeFile`: overwrite the entry with this name, or append it. -/
def writeFile : FS → List Char → List Char → FS
  | [], k, v => [(k, v)]
  | e :: fs, k, v => if e.1 = k then (k, v) :: fs else e :: writeFile fs k v

/-- Model of `fs.readFile` (and key lookup): content of the first entry so named. -/
def readFile (fs : FS) (k : List Char) : Option (List Char) :=
  (fs.find? (fun e => decide (e.1 = k))).map Prod.snd

/-- Model of `fs.readdir`: the file names of the directory. -/
def readdir (fs : FS) : List (List Char) := fs.map Prod.fst

/-- Fetch-and-render of a base `route` (add.ts lines 150-222): one fetch for
a single route, two (light then dark) for a themed one, each sanitised by
`extractSvgContent`; `none` if any fetch throws. -/
def buildBaseContent (fetch : Fetch) (name : List Char) : Route → Option (List Char)
  | Route.single r => (fetch r).map (fun s => singleTemplate name (extractSvgContent s))
  | Route.themed d l => do
      let ls ← fetch l
      let ds ← fetch d
      pure (themedTemplate name (extractSvgContent ls) (extractSvgContent ds))

/-- Fetch-and-render of a `wordmark` route (add.ts lines 241-302). -/
def buildWordmarkContent (fetch : Fetch) (name : List Char) : Route → Option (List Char)
  | Route.single r => (fetch r).map (fun s => wordmarkSingleTemplate name (extractSvgContent s))
  | Route.themed d l => do
      let ls ← fetch l
      let ds ← fetch d
      pure (wordmarkThemedTemplate name (extractSvgContent ls) (extractSvgContent ds))

/-- The per-icon `try { ... } catch` body (add.ts lines 139-325).  Returns
the directory after the item, the records pushed for it, and whether the
catch block ran.  A failing base fetch leaves the directory untouched; a
failing wordmark fetch happens after the base file was written and its
record pushed, so both survive. -/
def processItem (fetch : Fetch) (fs : FS) (svg : ISVG) : FS × List CompRec × Bool :=
  let name := componentNameOf svg.title
  let file := svgSlug svg.title
  match buildBaseContent fetch name svg.route with
  | none => (fs, [], true)
  | some content =>
    let fs1 := writeFile fs (file ++ (".tsx").data) content
    let baseRec : CompRec := ⟨name, file, isThemedRoute svg.route, false⟩
    match svg.wordmark with
    | none => (fs1, [baseRec], false)
    | some w =>
      match buildWordmarkContent fetch name w with
      | none => (fs1, [baseRec], true)
      | some wc =>
        let fs2 := writeFile fs1 ((file ++ ("-wordmark").data) ++ (".tsx").data) wc
        (fs2, [baseRec, ⟨name ++ ("Wordmark").data, file ++ ("-wordmark").data, isThemedRoute w, true⟩], false)

/-- The console message `Failed to create component for ${title}: ...`
(add.ts lines 321-323), modelled up to the appended error text. -/
def itemFailMsg (title : List Char) : List Char :=
  ("Failed to create component for ").data ++ title

/-- The `for (const svg of selectedSVGs)` loop (add.ts lines 139-325):
directory state threads through; records and error logs accumulate. -/
def genLoop (fetch : Fetch) : FS → List ISVG → FS × List CompRec × List (List Char)
  | fs, [] => (fs, [], [])
  | fs, svg :: rest =>
    let r := processItem fetch fs svg
    let g := genLoop fetch r.1 rest
    (g.1, r.2.1 ++ g.2.1, (if r.2.2 = true then [itemFailMsg svg.title] else []) ++ g.2.2)

/-- First match of `/export const (\w+):/` (add.ts line 347): the captured
identifier of the first position where the literal `export const ` is
followed by a non-empty `\w` run immediately followed by `:`. -/
def findExportName : List Char → Option (List Char)
  | [] => none
  | c :: cs =>
    if startsWithChars (("export const ").data) (c :: cs) then
      let rest := List.drop 13 (c :: cs)
      let w := rest.takeWhile isWordChar
      if w ≠ [] ∧ (rest.dropWhile isWordChar).head? = some ':' then some w
      else findExportName cs
    else findExportName cs

/-- The scan loop over `fs.readdir` (add.ts lines 333-358): every `.tsx`
file other than `index.tsx` whose slug is not yet in the accumulated list
and whose content yields an export name is appended as a new record. -/
def buildAllGo (fs : FS) : List (List Char) → List CompRec → List CompRec
  | [], acc => acc
  | file :: rest, acc =>
    if endsWithChars ((".tsx").data) file = true ∧ file ≠ ("index.tsx").data then
      let slug := replaceFirst ((".tsx").data) [] file
      if acc.any (fun comp => decide (comp.fileName = slug)) then buildAllGo fs rest acc
      else
        match readFile fs file with
        | some content =>
          match findExportName content with
          | some nm =>
            buildAllGo fs rest
              (acc ++ [⟨nm, slug, containsChars (("useTheme").data) content,
                        containsChars (("-wordmark").data) slug⟩])
          | none => buildAllGo fs rest acc
        | none => buildAllGo fs rest acc
    else buildAllGo fs rest acc

/-- The list `allComponents` (add.ts lines 329-358): this run's records followed by
the records discovered by scanning the output directory. -/
def buildAllComponents (fs : FS) (created : List CompRec) : List CompRec :=
  buildAllGo fs (readdir fs) created

/-- The record one directory entry can contribute to the scan (add.ts lines
333-358), ignoring the already-seen check: `.tsx` files other than
`index.tsx` whose content matches the export regex. -/
def scanRecOf (fs : FS) (file : List Char) : Option CompRec :=
  if endsWithChars ((".tsx").data) file = true ∧ file ≠ ("index.tsx").data then
    match readFile fs file with
    | some content =>
      match findExportName content with
      | some nm =>
        some ⟨nm, replaceFirst ((".tsx").data) [] file,
          containsChars (("useTheme").data) content,
          containsChars (("-wordmark").data) (replaceFirst ((".tsx").data) [] file)⟩
      | none => none
    | none => none
  else none

/-- The slugs the directory scan can contribute. -/
def scannedSlugs (fs : FS) : List (List Char) :=
  (readdir fs).filterMap (fun file => (scanRecOf fs file).map CompRec.fileName)

/-- One `import { name } from './fileName';` line (add.ts line 363). -/
def importLineOf (comp : CompRec) : List Char :=
  ("import \x7b ").data ++ comp.name ++ (" \x7d from \x27./").data ++ comp.fileName ++ ("\x27;").data

/-- The aggregate export text `indexContent` (add.ts lines 360-368). -/
def indexContent (comps : List CompRec) : List Char :=
  ("\nimport React from \x27react\x27;\n\n").data ++
  List.intercalate (("\n").data) (comps.map importLineOf) ++
  ("\n\nexport \x7b\n  ").data ++
  List.intercalate ((",\n  ").data) (comps.map CompRec.name) ++
  ("\n\x7d;\n").data

/-- Message `console.error('No SVGs found in the repository.')` (add.ts line 40). -/
def msgNoSvgs : List Char := ("No SVGs found in the repository.").data

/-- Message `console.error('None of the requested SVGs were found.')` (line 64). -/
def msgNoneFound : List Char := ("None of the requested SVGs were found.").data

/-- The outer catch message (add.ts line 384), up to the error text. -/
def msgFetchFail : List Char := ("Failed to fetch or process SVGs").data

/-- Outcome of one invocation of the `add` command. -/
structure RunResult where
  fs : FS
  created : List CompRec
  exported : List CompRec
  errors : List (List Char)
deriving DecidableEq

/-- The whole `add` command (add.ts lines 28-386).  `catalog` is the
`axios.get` of the API (`none` = the request threw, caught by the outer
catch); `pick` is the interactive `inquirer` selection, used only when no
name tokens were passed. -/
def runAdd (catalog : Option (List ISVG)) (args : List (List Char))
    (pick : List ISVG → List ISVG) (fetch : Fetch) (fs0 : FS) : RunResult :=
  match catalog with
  | none => ⟨fs0, [], [], [msgFetchFail]⟩
  | some svgs =>
    if svgs = [] then ⟨fs0, [], [], [msgNoSvgs]⟩
    else
      let selected := if args = [] then pick svgs else selectSVGs svgs args
      if args ≠ [] ∧ selectSVGs svgs args = [] then ⟨fs0, [], [], [msgNoneFound]⟩
      else if selected = [] then ⟨fs0, [], [], []⟩
      else
        let r := genLoop fetch fs0 selected
        let all := buildAllComponents r.1 r.2.1
        ⟨writeFile r.1 (("index.tsx").data) (indexContent all), r.2.1, all, r.2.2⟩

/-- The records (and error flag) an item contributes do not depend on the
directory state, so they can be read off at the empty directory. -/
def recsOf (fetch : Fetch) (svg : ISVG) : List CompRec :=
  (processItem fetch [] svg).2.1

/-- Did the per-item catch block run for this icon? -/
def errOf (fetch : Fetch) (svg : ISVG) : Bool :=
  (processItem fetch [] svg).2.2

/-- Modelled from the generated code text, not from src: the theme selection
of the base themed component (add.ts lines 213-219 of the template):
`const isDark = mounted && resolvedTheme === 'dark'; return isDark ? dark :
light`. -/
def themedSelect (dark light : List Char) (mounted : Bool) (resolvedTheme : List Char) : List Char :=
  if mounted = true ∧ resolvedTheme = ("dark").data then dark else light

/-- Modelled from the generated code text, not from src: the theme selection
of the themed wordmark component (add.ts lines 293-299 of the template):
`const isDark = resolvedTheme === 'dark'; return isDark ? dark : light` —
with no `mounted` deferral. -/
def wordmarkThemedSelect (dark light : List Char) (resolvedTheme : List Char) : List Char :=
  if resolvedTheme = ("dark").data then dark else light

/-! ## Character-level lemmas -/

theorem jsToLower_toNat (c : Char) :
    (jsToLower c).toNat = if 65 ≤ c.toNat ∧ c.toNat ≤ 90 then c.toNat + 32 else c.toNat := by
  unfold jsToLower
  split <;> rfl

theorem jsToLower_eq_self (c : Char) (h : ¬(65 ≤ c.toNat ∧ c.toNat ≤ 90)) :
    jsToLower c = c := by
  unfold jsToLower
  rw [dif_neg h]

theorem jsToLower_idem (c : Char) : jsToLower (jsToLower c) = jsToLower c := by
  apply jsToLower_eq_self
  rw [jsToLower_toNat]
  split
  · omega
  · assumption

theorem lowerChars_idem (s : List Char) : lowerChars (lowerChars s) = lowerChars s := by
  unfold lowerChars
  rw [List.map_map]
  exact List.map_congr_left (fun c _ => jsToLower_idem c)

theorem jsToLower_of_slugChar (c : Char) (h : isLowerAlnum c = true ∨ c = '-') :
    jsToLower c = c := by
  apply jsToLower_eq_self
  rcases h with h | h
  · unfold isLowerAlnum at h
    simp only [Bool.or_eq_true, decide_eq_true_eq] at h
    omega
  · subst h
    decide

theorem ne_dash_of_lowerAlnum (c : Char) (h : isLowerAlnum c = true) : c ≠ '-' := by
  intro e
  subst e
  exact absurd h (by decide)

/-! ## Substring lemmas -/

theorem startsWithChars_append (p : List Char) : ∀ (s t : List Char),
    startsWithChars p s = true → startsWithChars p (s ++ t) = true := by
  induction p with
  | nil => intro s t _; rfl
  | cons ph pt ih =>
    intro s t h
    cases s with
    | nil => exact absurd h (by simp [startsWithChars])
    | cons c cs =>
      simp only [startsWithChars, Bool.and_eq_true, decide_eq_true_eq] at h ⊢
      exact ⟨h.1, ih cs t h.2⟩

theorem containsChars_nil_pat (t : List Char) : containsChars [] t = true := by
  cases t <;> simp [containsChars, startsWithChars]

theorem containsChars_append_right (p s t : List Char)
    (h : containsChars p t = true) : containsChars p (s ++ t) = true := by
  induction s with
  | nil => exact h
  | cons c cs ih =>
    simp only [List.cons_append, containsChars, Bool.or_eq_true]
    exact Or.inr ih

theorem containsChars_append_left (p : List Char) : ∀ (s t : List Char),
    containsChars p s = true → containsChars p (s ++ t) = true := by
  intro s
  induction s with
  | nil =>
    intro t h
    cases p with
    | nil => exact containsChars_nil_pat t
    | cons ph pt => exact absurd h (by simp [containsChars, startsWithChars])
  | cons c cs ih =>
    intro t h
    simp only [containsChars, Bool.or_eq_true] at h
    simp only [List.cons_append, containsChars, Bool.or_eq_true]
    rcases h with h | h
    · exact Or.inl (startsWithChars_append p (c :: cs) t h)
    · exact Or.inr (ih t h)

/-! ## Filesystem lemmas -/

theorem find?_writeFile_same (fs : FS) (k v : List Char) :
    List.find? (fun e => decide (e.1 = k)) (writeFile fs k v) = some (k, v) := by
  induction fs with
  | nil =>
    show List.find? (fun e => decide (e.1 = k)) [(k, v)] = some (k, v)
    rw [List.find?_cons_of_pos _ (by simp)]
  | cons e fs ih =>
    by_cases he : e.1 = k
    · show List.find? _ (if e.1 = k then (k, v) :: fs else _) = _
      rw [if_pos he, List.find?_cons_of_pos _ (by simp)]
    · show List.find? _ (if e.1 = k then _ else e :: writeFile fs k v) = _
      rw [if_neg he, List.find?_cons_of_neg _ (by simpa using he)]
      exact ih

theorem find?_writeFile_ne (fs : FS) (k k' v : List Char) (h : k' ≠ k) :
    List.find? (fun e => decide (e.1 = k')) (writeFile fs k v) =
      List.find? (fun e => decide (e.1 = k')) fs := by
  induction fs with
  | nil =>
    show List.find? (fun e => decide (e.1 = k')) [(k, v)] = _
    rw [List.find?_cons_of_neg _ (by simpa using fun e => h e.symm), List.find?_nil]
  | cons e fs ih =>
    by_cases he : e.1 = k
    · show List.find? _ (if e.1 = k then (k, v) :: fs else _) = _
      rw [if_pos he, List.find?_cons_of_neg _ (by simpa using fun e => h e.symm),
        List.find?_cons_of_neg _ (by simp [he]; exact fun e => h e.symm)]
    · show List.find? _ (if e.1 = k then _ else e :: writeFile fs k v) = _
      rw [if_neg he]
      by_cases hp : e.1 = k'
      · rw [List.find?_cons_of_pos _ (by simpa using hp),
          List.find?_cons_of_pos _ (by simpa using hp)]
      · rw [List.find?_cons_of_neg _ (by simpa using hp),
          List.find?_cons_of_neg _ (by simpa using hp)]
        exact ih

theorem readFile_writeFile_same (fs : FS) (k v : List Char) :
    readFile (writeFile fs k v) k = some v := by
  unfold readFile
  rw [find?_writeFile_same]
  rfl

theorem readFile_writeFile_ne (fs : FS) (k k' v : List Char) (h : k' ≠ k) :
    readFile (writeFile fs k v) k' = readFile fs k' := by
  unfold readFile
  rw [find?_writeFile_ne fs k k' v h]

/-! ## Slug-shape lemmas -/

/-- Adjacent characters are not both the separator. -/
def noDashPair (a b : Char) : Prop := ¬(a = '-' ∧ b = '-')

theorem mem_collapseAux (b : Bool) (l : List Char) (c : Char) (h : c ∈ collapseAux b l) :
    isLowerAlnum c = true ∨ c = '-' := by
  induction l generalizing b with
  | nil => simp [collapseAux] at h
  | cons d ds ih =>
    by_cases hd : isLowerAlnum d
    · simp only [collapseAux, if_pos hd, List.mem_cons] at h
      rcases h with rfl | h
      · exact Or.inl hd
      · exact ih false h
    · cases b
      · simp only [collapseAux, if_neg hd, Bool.false_eq_true, if_false, List.mem_cons] at h
        rcases h with rfl | h
        · exact Or.inr rfl
        · exact ih true h
      · simp only [collapseAux, if_neg hd, if_pos rfl] at h
        exact ih true h

theorem head_collapseAux_true (l : List Char) :
    (collapseAux true l).head? ≠ some '-' := by
  induction l with
  | nil => simp [collapseAux]
  | cons d ds ih =>
    by_cases hd : isLowerAlnum d
    · simp only [collapseAux, if_pos hd, List.head?_cons, ne_eq, Option.some.injEq]
      exact ne_dash_of_lowerAlnum d hd
    · simpa only [collapseAux, if_neg hd, if_pos rfl] using ih

theorem chain_collapseAux (b : Bool) (l : List Char) :
    List.Chain' noDashPair (collapseAux b l) := by
  induction l generalizing b with
  | nil => simp [collapseAux]
  | cons d ds ih =>
    by_cases hd : isLowerAlnum d
    · simp only [collapseAux, if_pos hd]
      rw [List.chain'_cons']
      refine ⟨fun y _ hc => ne_dash_of_lowerAlnum d hd hc.1, ih false⟩
    · cases b
      · simp only [collapseAux, if_neg hd, Bool.false_eq_true, if_false]
        rw [List.chain'_cons']
        refine ⟨fun y hy hc => head_collapseAux_true ds ?_, ih true⟩
        rw [hy, hc.2]
      · simpa only [collapseAux, if_neg hd, if_pos rfl] using ih true

theorem dropLeadDash_eq_self (l : List Char) (h : l.head? ≠ some '-') :
    dropLeadDash l = l := by
  cases l with
  | nil => rfl
  | cons c cs =>
    have hc : c ≠ '-' := fun e => h (by rw [List.head?_cons, e])
    simp [dropLeadDash, hc]

theorem mem_dropLeadDash (l : List Char) (c : Char) (h : c ∈ dropLeadDash l) : c ∈ l := by
  cases l with
  | nil => simp [dropLeadDash] at h
  | cons d ds =>
    by_cases hd : d = '-'
    · simp only [dropLeadDash, if_pos hd] at h
      exact List.mem_cons_of_mem d h
    · simpa only [dropLeadDash, if_neg hd] using h

theorem chain_dropLeadDash (R : Char → Char → Prop) (l : List Char)
    (h : List.Chain' R l) : List.Chain' R (dropLeadDash l) := by
  cases l with
  | nil => simp [dropLeadDash]
  | cons d ds =>
    by_cases hd : d = '-'
    · simp only [dropLeadDash, if_pos hd]
      exact (List.chain'_cons'.mp h).2
    · simpa only [dropLeadDash, if_neg hd] using h

theorem head_dropLeadDash (l : List Char) (h : List.Chain' noDashPair l) :
    (dropLeadDash l).head? ≠ some '-' := by
  cases l with
  | nil => simp [dropLeadDash]
  | cons d ds =>
    by_cases hd : d = '-'
    · subst hd
      have he : dropLeadDash ('-' :: ds) = ds := by simp [dropLeadDash]
      rw [he]
      intro hy
      cases ds with
      | nil => simp at hy
      | cons e es =>
        simp only [List.head?_cons, Option.some.injEq] at hy
        exact (List.chain'_cons.mp h).1 ⟨rfl, hy⟩
    · simp only [dropLeadDash, if_neg hd, List.head?_cons, ne_eq, Option.some.injEq]
      exact hd

theorem getLast_dropLeadDash (l : List Char) (h : l.getLast? ≠ some '-') :
    (dropLeadDash l).getLast? ≠ some '-' := by
  cases l with
  | nil => simp [dropLeadDash]
  | cons c cs =>
    by_cases hc : c = '-'
    · simp only [dropLeadDash, if_pos hc]
      cases cs with
      | nil => simp
      | cons d ds =>
        rw [← List.getLast?_cons_cons (a := c)]
        exact h
    · simpa only [dropLeadDash, if_neg hc] using h

theorem collapseAux_id (l : List Char)
    (hc : ∀ c ∈ l, isLowerAlnum c = true ∨ c = '-')
    (hch : List.Chain' noDashPair l) :
    collapseAux false l = l ∧ (l.head? ≠ some '-' → collapseAux true l = l) := by
  induction l with
  | nil => exact ⟨rfl, fun _ => rfl⟩
  | cons c cs ih =>
    have hcs : ∀ x ∈ cs, isLowerAlnum x = true ∨ x = '-' :=
      fun x hx => hc x (List.mem_cons_of_mem _ hx)
    have hch' : List.Chain' noDashPair cs := (List.chain'_cons'.mp hch).2
    have ihcs := ih hcs hch'
    rcases hc c (List.mem_cons_self c cs) with hal | hdash
    · constructor
      · simp [collapseAux, hal, ihcs.1]
      · intro _
        simp [collapseAux, hal, ihcs.1]
    · subst hdash
      have hhd : cs.head? ≠ some '-' := by
        intro e
        exact (List.chain'_cons'.mp hch).1 '-' e ⟨rfl, rfl⟩
      constructor
      · simp only [collapseAux, show isLowerAlnum '-' = false from by decide,
          Bool.false_eq_true, if_false, List.cons.injEq, true_and]
        exact ihcs.2 hhd
      · intro hh
        exact ((by simp at hh) : False).elim

theorem svgSlug_id_of_props (l : List Char)
    (hc : ∀ c ∈ l, isLowerAlnum c = true ∨ c = '-')
    (hch : List.Chain' noDashPair l)
    (hh : l.head? ≠ some '-') (hl : l.getLast? ≠ some '-') :
    svgSlug l = l := by
  unfold svgSlug
  have h1 : lowerChars l = l := by
    unfold lowerChars
    rw [List.map_congr_left (fun c hcl => jsToLower_of_slugChar c (hc c hcl))]
    simp
  rw [h1, (collapseAux_id l hc hch).1]
  unfold trimSlugDashes
  rw [dropLeadDash_eq_self l hh,
    dropLeadDash_eq_self l.reverse (by rw [List.head?_reverse]; exact hl),
    List.reverse_reverse]

theorem svgSlug_props (t : List Char) :
    (∀ c ∈ svgSlug t, isLowerAlnum c = true ∨ c = '-') ∧
    List.Chain' noDashPair (svgSlug t) ∧
    (svgSlug t).head? ≠ some '-' ∧ (svgSlug t).getLast? ≠ some '-' := by
  unfold svgSlug trimSlugDashes
  have hcs : ∀ c ∈ collapseAux false (lowerChars t), isLowerAlnum c = true ∨ c = '-' :=
    fun c hc => mem_collapseAux false _ c hc
  have hch : List.Chain' noDashPair (collapseAux false (lowerChars t)) :=
    chain_collapseAux false _
  set s := collapseAux false (lowerChars t)
  have hcu : ∀ c ∈ dropLeadDash s, isLowerAlnum c = true ∨ c = '-' :=
    fun c hc => hcs c (mem_dropLeadDash _ c hc)
  have hchu : List.Chain' noDashPair (dropLeadDash s) := chain_dropLeadDash _ _ hch
  have hhu : (dropLeadDash s).head? ≠ some '-' := head_dropLeadDash s hch
  set u := dropLeadDash s
  have hchw : List.Chain' noDashPair u.reverse := by
    rw [List.chain'_reverse]
    exact hchu.imp (fun a b h hc => h ⟨hc.2, hc.1⟩)
  have hcv : ∀ c ∈ dropLeadDash u.reverse, isLowerAlnum c = true ∨ c = '-' :=
    fun c hc => hcu c (List.mem_reverse.mp (mem_dropLeadDash _ c hc))
  have hchv : List.Chain' noDashPair (dropLeadDash u.reverse) :=
    chain_dropLeadDash _ _ hchw
  have hhv : (dropLeadDash u.reverse).head? ≠ some '-' := head_dropLeadDash u.reverse hchw
  have hlv : (dropLeadDash u.reverse).getLast? ≠ some '-' :=
    getLast_dropLeadDash u.reverse (by rw [List.getLast?_reverse]; exact hhu)
  refine ⟨fun c hc => hcv c (List.mem_reverse.mp hc), ?_, ?_, ?_⟩
  · rw [List.chain'_reverse]
    exact hchv.imp (fun a b h hc => h ⟨hc.2, hc.1⟩)
  · rw [List.head?_reverse]
    exact hlv
  · rw [List.getLast?_reverse]
    exact hhv

theorem svgSlug_idem (t : List Char) : svgSlug (svgSlug t) = svgSlug t := by
  obtain ⟨hc, hch, hh, hl⟩ := svgSlug_props t
  exact svgSlug_id_of_props _ hc hch hh hl

/-! ## Generation-loop lemmas -/

theorem processItem_eq_base_none (fetch : Fetch) (fs : FS) (svg : ISVG)
    (hb : buildBaseContent fetch (componentNameOf svg.title) svg.route = none) :
    processItem fetch fs svg = (fs, [], true) := by
  simp only [processItem, hb]

theorem processItem_eq_no_wordmark (fetch : Fetch) (fs : FS) (svg : ISVG) (content : List Char)
    (hb : buildBaseContent fetch (componentNameOf svg.title) svg.route = some content)
    (hw : svg.wordmark = none) :
    processItem fetch fs svg =
      (writeFile fs (svgSlug svg.title ++ (".tsx").data) content,
       [⟨componentNameOf svg.title, svgSlug svg.title, isThemedRoute svg.route, false⟩],
       false) := by
  simp only [processItem, hb, hw]

theorem processItem_eq_wm_fail (fetch : Fetch) (fs : FS) (svg : ISVG) (content : List Char)
    (w : Route)
    (hb : buildBaseContent fetch (componentNameOf svg.title) svg.route = some content)
    (hw : svg.wordmark = some w)
    (hwc : buildWordmarkContent fetch (componentNameOf svg.title) w = none) :
    processItem fetch fs svg =
      (writeFile fs (svgSlug svg.title ++ (".tsx").data) content,
       [⟨componentNameOf svg.title, svgSlug svg.title, isThemedRoute svg.route, false⟩],
       true) := by
  simp only [processItem, hb, hw, hwc]

theorem processItem_eq_wm_ok (fetch : Fetch) (fs : FS) (svg : ISVG) (content wc : List Char)
    (w : Route)
    (hb : buildBaseContent fetch (componentNameOf svg.title) svg.route = some content)
    (hw : svg.wordmark = some w)
    (hwc : buildWordmarkContent fetch (componentNameOf svg.title) w = some wc) :
    processItem fetch fs svg =
      (writeFile (writeFile fs (svgSlug svg.title ++ (".tsx").data) content)
         ((svgSlug svg.title ++ ("-wordmark").data) ++ (".tsx").data) wc,
       [⟨componentNameOf svg.title, svgSlug svg.title, isThemedRoute svg.route, false⟩,
        ⟨componentNameOf svg.title ++ ("Wordmark").data,
         svgSlug svg.title ++ ("-wordmark").data, isThemedRoute w, true⟩],
       false) := by
  simp only [processItem, hb, hw, hwc]

theorem processItem_snd_const (fetch : Fetch) (fs fs' : FS) (svg : ISVG) :
    (processItem fetch fs svg).2 = (processItem fetch fs' svg).2 := by
  cases hb : buildBaseContent fetch (componentNameOf svg.title) svg.route with
  | none =>
    rw [processItem_eq_base_none fetch fs svg hb, processItem_eq_base_none fetch fs' svg hb]
  | some content =>
    cases hw : svg.wordmark with
    | none =>
      rw [processItem_eq_no_wordmark fetch fs svg content hb hw,
        processItem_eq_no_wordmark fetch fs' svg content hb hw]
    | some w =>
      cases hwc : buildWordmarkContent fetch (componentNameOf svg.title) w with
      | none =>
        rw [processItem_eq_wm_fail fetch fs svg content w hb hw hwc,
          processItem_eq_wm_fail fetch fs' svg content w hb hw hwc]
      | some wc =>
        rw [processItem_eq_wm_ok fetch fs svg content wc w hb hw hwc,
          processItem_eq_wm_ok fetch fs' svg content wc w hb hw hwc]

theorem processItem_recs (fetch : Fetch) (fs : FS) (svg : ISVG) :
    (processItem fetch fs svg).2.1 = recsOf fetch svg :=
  congrArg Prod.fst (processItem_snd_const fetch fs [] svg)

theorem processItem_err (fetch : Fetch) (fs : FS) (svg : ISVG) :
    (processItem fetch fs svg).2.2 = errOf fetch svg :=
  congrArg Prod.snd (processItem_snd_const fetch fs [] svg)

theorem genLoop_created (fetch : Fetch) (svgs : List ISVG) : ∀ (fs : FS),
    (genLoop fetch fs svgs).2.1 = svgs.flatMap (recsOf fetch) := by
  induction svgs with
  | nil => intro fs; rfl
  | cons svg rest ih =>
    intro fs
    simp only [genLoop, List.flatMap_cons]
    rw [processItem_recs, ih]

theorem genLoop_errors (fetch : Fetch) (svgs : List ISVG) : ∀ (fs : FS),
    (genLoop fetch fs svgs).2.2 =
      (svgs.filter (fun svg => errOf fetch svg)).map (fun svg => itemFailMsg svg.title) := by
  induction svgs with
  | nil => intro fs; rfl
  | cons svg rest ih =>
    intro fs
    simp only [genLoop]
    rw [processItem_err, ih]
    cases herr : errOf fetch svg <;> simp [List.filter_cons, herr]

/-! ## Rebuild-scan lemmas -/

theorem buildAllGo_step (fs : FS) (file : List Char) (rest : List (List Char)) (acc : List CompRec) :
    buildAllGo fs (file :: rest) acc =
      match scanRecOf fs file with
      | none => buildAllGo fs rest acc
      | some r =>
        if acc.any (fun comp => decide (comp.fileName = r.fileName)) then buildAllGo fs rest acc
        else buildAllGo fs rest (acc ++ [r]) := by
  by_cases hel : endsWithChars ((".tsx").data) file = true ∧ file ≠ ("index.tsx").data
  · by_cases hmem : acc.any
        (fun comp => decide (comp.fileName = replaceFirst ((".tsx").data) [] file))
    · cases hrf : readFile fs file with
      | none => simp only [buildAllGo, scanRecOf, if_pos hel, if_pos hmem, hrf]
      | some content =>
        cases hfe : findExportName content with
        | none => simp only [buildAllGo, scanRecOf, if_pos hel, if_pos hmem, hrf, hfe]
        | some nm => simp only [buildAllGo, scanRecOf, if_pos hel, if_pos hmem, hrf, hfe]
    · cases hrf : readFile fs file with
      | none => simp only [buildAllGo, scanRecOf, if_pos hel, if_neg hmem, hrf]
      | some content =>
        cases hfe : findExportName content with
        | none => simp only [buildAllGo, scanRecOf, if_pos hel, if_neg hmem, hrf, hfe]
        | some nm => simp only [buildAllGo, scanRecOf, if_pos hel, if_neg hmem, hrf, hfe]
  · simp only [buildAllGo, scanRecOf, if_neg hel]

theorem buildAllGo_spec (fs : FS) : ∀ (files : List (List Char)) (acc : List CompRec),
    ∃ extra, buildAllGo fs files acc = acc ++ extra ∧
      (∀ r ∈ extra, r.fileName ∉ acc.map CompRec.fileName) ∧
      (extra.map CompRec.fileName).Nodup ∧
      (∀ x, x ∈ (buildAllGo fs files acc).map CompRec.fileName ↔
        x ∈ acc.map CompRec.fileName ∨
        x ∈ files.filterMap (fun f => (scanRecOf fs f).map CompRec.fileName)) := by
  intro files
  induction files with
  | nil =>
    intro acc
    exact ⟨[], by simp [buildAllGo], by simp, by simp, by simp [buildAllGo]⟩
  | cons file rest ih =>
    intro acc
    cases hscan : scanRecOf fs file with
    | none =>
      have hgo : buildAllGo fs (file :: rest) acc = buildAllGo fs rest acc := by
        rw [buildAllGo_step, hscan]
      rw [hgo]
      obtain ⟨extra, he, hnot, hnd, hiff⟩ := ih acc
      refine ⟨extra, he, hnot, hnd, ?_⟩
      intro x
      rw [hiff]
      simp [List.filterMap_cons, hscan]
    | some r =>
      by_cases hmem : acc.any (fun comp => decide (comp.fileName = r.fileName))
      · have hgo : buildAllGo fs (file :: rest) acc = buildAllGo fs rest acc := by
          rw [buildAllGo_step, hscan]
          simp [hmem]
        rw [hgo]
        obtain ⟨extra, he, hnot, hnd, hiff⟩ := ih acc
        refine ⟨extra, he, hnot, hnd, ?_⟩
        intro x
        rw [hiff]
        have hracc : r.fileName ∈ acc.map CompRec.fileName := by
          simp only [List.any_eq_true, decide_eq_true_eq] at hmem
          obtain ⟨comp, hcm, hfn⟩ := hmem
          exact List.mem_map.mpr ⟨comp, hcm, hfn⟩
        simp only [List.filterMap_cons, hscan, Option.map_some', List.mem_cons]
        constructor
        · intro h
          rcases h with h | h
          · exact Or.inl h
          · exact Or.inr (Or.inr h)
        · intro h
          rcases h with h | h | h
          · exact Or.inl h
          · exact Or.inl (h ▸ hracc)
          · exact Or.inr h
      · have hgo : buildAllGo fs (file :: rest) acc = buildAllGo fs rest (acc ++ [r]) := by
          rw [buildAllGo_step, hscan]
          simp [hmem]
        rw [hgo]
        obtain ⟨extra, he, hnot, hnd, hiff⟩ := ih (acc ++ [r])
        have hrnot : r.fileName ∉ acc.map CompRec.fileName := by
          intro hr
          apply hmem
          simp only [List.any_eq_true, decide_eq_true_eq]
          obtain ⟨comp, hcm, hfn⟩ := List.mem_map.mp hr
          exact ⟨comp, hcm, hfn⟩
        refine ⟨r :: extra, by rw [he]; simp, ?_, ?_, ?_⟩
        · intro s hs
          rcases List.mem_cons.mp hs with rfl | hs
          · exact hrnot
          · intro hsacc
            exact hnot s hs (by simp [hsacc])
        · simp only [List.map_cons, List.nodup_cons]
          refine ⟨?_, hnd⟩
          intro hrx
          obtain ⟨s, hs, hfn⟩ := List.mem_map.mp hrx
          exact hnot s hs (by simp [hfn])
        · intro x
          rw [hiff]
          simp only [List.filterMap_cons, hscan, Option.map_some', List.mem_cons,
            List.map_append, List.mem_append, List.map_cons, List.mem_singleton]
          tauto

theorem buildAllComponents_decomp (fs : FS) (created : List CompRec) :
    ∃ extra, buildAllComponents fs created = created ++ extra ∧
      (∀ r ∈ extra, r.fileName ∉ created.map CompRec.fileName) ∧
      (extra.map CompRec.fileName).Nodup ∧
      (∀ x, x ∈ (buildAllComponents fs created).map CompRec.fileName ↔
        x ∈ created.map CompRec.fileName ∨ x ∈ scannedSlugs fs) :=
  buildAllGo_spec fs (readdir fs) created

theorem buildAllComponents_nodup (fs : FS) (created : List CompRec)
    (h : (created.map CompRec.fileName).Nodup) :
    ((buildAllComponents fs created).map CompRec.fileName).Nodup := by
  obtain ⟨extra, he, hnot, hnd, _⟩ := buildAllComponents_decomp fs created
  rw [he, List.map_append, List.nodup_append]
  refine ⟨h, hnd, ?_⟩
  intro x hx hx'
  obtain ⟨r, hr, hfn⟩ := List.mem_map.mp hx'
  exact hnot r hr (hfn ▸ hx)

theorem mem_buildAllComponents_of_created (fs : FS) (created : List CompRec)
    (r : CompRec) (hr : r ∈ created) : r ∈ buildAllComponents fs created := by
  obtain ⟨extra, he, _, _, _⟩ := buildAllComponents_decomp fs created
  rw [he]
  exact List.mem_append_left extra hr

/-! ## runAdd equations -/

theorem runAdd_none (args : List (List Char)) (pick : List ISVG → List ISVG)
    (fetch : Fetch) (fs0 : FS) :
    runAdd none args pick fetch fs0 = ⟨fs0, [], [], [msgFetchFail]⟩ := rfl

theorem runAdd_empty_catalog (args : List (List Char)) (pick : List ISVG → List ISVG)
    (fetch : Fetch) (fs0 : FS) :
    runAdd (some []) args pick fetch fs0 = ⟨fs0, [], [], [msgNoSvgs]⟩ := by
  simp [runAdd]

theorem runAdd_gen (svgs : List ISVG) (args : List (List Char))
    (pick : List ISVG → List ISVG) (fetch : Fetch) (fs0 : FS)
    (hne : svgs ≠ []) (hargs : args ≠ []) (hsel : selectSVGs svgs args ≠ []) :
    runAdd (some svgs) args pick fetch fs0 =
      ⟨writeFile (genLoop fetch fs0 (selectSVGs svgs args)).1 (("index.tsx").data)
         (indexContent (buildAllComponents (genLoop fetch fs0 (selectSVGs svgs args)).1
            (genLoop fetch fs0 (selectSVGs svgs args)).2.1)),
       (genLoop fetch fs0 (selectSVGs svgs args)).2.1,
       buildAllComponents (genLoop fetch fs0 (selectSVGs svgs args)).1
         (genLoop fetch fs0 (selectSVGs svgs args)).2.1,
       (genLoop fetch fs0 (selectSVGs svgs args)).2.2⟩ := by
  simp only [runAdd, if_neg hne, if_neg hargs]
  rw [if_neg (fun h => hsel h.2), if_neg hsel]

/-! ## Template containment lemmas -/

theorem singleTemplate_contains_w24 (name markup : List Char) :
    containsChars (("width = 24,").data) (singleTemplate name markup) = true := by
  unfold singleTemplate
  apply containsChars_append_left
  apply containsChars_append_left
  apply containsChars_append_right
  decide

theorem themedTemplate_contains_w24 (name lightMarkup darkMarkup : List Char) :
    containsChars (("width = 24,").data) (themedTemplate name lightMarkup darkMarkup) = true := by
  unfold themedTemplate
  apply containsChars_append_left
  apply containsChars_append_left
  apply containsChars_append_left
  apply containsChars_append_left
  apply containsChars_append_right
  decide

theorem wordmarkSingle_contains_w100 (name markup : List Char) :
    containsChars (("width = 100,").data) (wordmarkSingleTemplate name markup) = true := by
  unfold wordmarkSingleTemplate
  apply containsChars_append_left
  apply containsChars_append_left
  apply containsChars_append_right
  decide

theorem wordmarkSingle_contains_h24 (name markup : List Char) :
    containsChars (("height = 24,").data) (wordmarkSingleTemplate name markup) = true := by
  unfold wordmarkSingleTemplate
  apply containsChars_append_left
  apply containsChars_append_left
  apply containsChars_append_right
  decide

theorem wordmarkThemed_contains_w100 (name lightMarkup darkMarkup : List Char) :
    containsChars (("width = 100,").data) (wordmarkThemedTemplate name lightMarkup darkMarkup) = true := by
  unfold wordmarkThemedTemplate
  apply containsChars_append_left
  apply containsChars_append_left
  apply containsChars_append_left
  apply containsChars_append_left
  apply containsChars_append_right
  decide

theorem wordmarkThemed_contains_h24 (name lightMarkup darkMarkup : List Char) :
    containsChars (("height = 24,").data) (wordmarkThemedTemplate name lightMarkup darkMarkup) = true := by
  unfold wordmarkThemedTemplate
  apply containsChars_append_left
  apply containsChars_append_left
  apply containsChars_append_left
  apply containsChars_append_left
  apply containsChars_append_right
  decide

theorem buildBaseContent_contains_w24 (fetch : Fetch) (name : List Char) (r : Route)
    (bc : List Char) (h : buildBaseContent fetch name r = some bc) :
    containsChars (("width = 24,").data) bc = true := by
  cases r with
  | single u =>
    simp only [buildBaseContent, Option.map_eq_some'] at h
    obtain ⟨s, _, rfl⟩ := h
    exact singleTemplate_contains_w24 name _
  | themed d l =>
    simp only [buildBaseContent, Option.bind_eq_bind, Option.bind_eq_some'] at h
    obtain ⟨ls, _, h⟩ := h
    obtain ⟨ds, _, h⟩ := h
    cases h
    exact themedTemplate_contains_w24 name _ _

theorem buildWordmarkContent_contains (fetch : Fetch) (name : List Char) (r : Route)
    (wc : List Char) (h : buildWordmarkContent fetch name r = some wc) :
    containsChars (("width = 100,").data) wc = true ∧
    containsChars (("height = 24,").data) wc = true := by
  cases r with
  | single u =>
    simp only [buildWordmarkContent, Option.map_eq_some'] at h
    obtain ⟨s, _, rfl⟩ := h
    exact ⟨wordmarkSingle_contains_w100 name _, wordmarkSingle_contains_h24 name _⟩
  | themed d l =>
    simp only [buildWordmarkContent, Option.bind_eq_bind, Option.bind_eq_some'] at h
    obtain ⟨ls, _, h⟩ := h
    obtain ⟨ds, _, h⟩ := h
    cases h
    exact ⟨wordmarkThemed_contains_w100 name _ _, wordmarkThemed_contains_h24 name _ _⟩

/-! ## Concrete fixtures -/

/-- An oracle that answers every fetch with a fixed small SVG document. -/
def fetchDemo : Fetch := fun _ => some (("<svg viewBox=\"0 0 24 24\"><path/></svg>").data)

/-- An oracle that fails (throws) exactly on one URL. -/
def fetchFailOn (bad : List Char) : Fetch :=
  fun u => if u = bad then none else some (("<svg><g/></svg>").data)

def svgAb : ISVG := ⟨("Ab").data, Route.single (("u1").data), none⟩

def svgBb : ISVG := ⟨("Bb").data, Route.single (("ub").data), none⟩

def svgFooBarSpace : ISVG := ⟨("Foo Bar").data, Route.single (("u2").data), none⟩

def svgFooBarJoined : ISVG := ⟨("FooBar").data, Route.single (("u3").data), none⟩

def svgGitHub : ISVG := ⟨("GitHub").data, Route.single (("u4").data), none⟩

def svgGitHubCopilot : ISVG := ⟨("GitHub Copilot").data, Route.single (("u5").data), none⟩

def svgWithWordmark : ISVG :=
  ⟨("Ab").data, Route.single (("u1").data), some (Route.single (("u6").data))⟩

/-- A directory containing one component file from a previous run. -/
def demoExistingFS : FS :=
  [((("existing.tsx").data), (("export const Existing: x").data))]

/-! ## Claims -/

set_option maxRecDepth 40000

/-- C1 counterexample.  The claim asserts that after generation the export
file has no duplicate export identifiers and is deduplicated by file slug.
Both parts fail: (a) a selection matching two catalog entries with the same
title yields the same file slug twice in the export list (deduplication only
runs between scanned files and the in-run list, not inside the in-run list);
(b) titles `Foo Bar` and `FooBar` produce distinct slugs but the identical
symbol `FooBar`, so the export list repeats an identifier even though its
slugs are distinct. -/
theorem C1_counterexample :
    ¬ (((runAdd (some [svgAb, svgAb]) [("ab").data] id fetchDemo []).exported.map
        CompRec.fileName).Nodup) ∧
    ¬ (((runAdd (some [svgFooBarSpace, svgFooBarJoined])
        [("foo-bar").data, ("foobar").data] id fetchDemo []).exported.map
        CompRec.name).Nodup) ∧
    (((runAdd (some [svgFooBarSpace, svgFooBarJoined])
        [("foo-bar").data, ("foobar").data] id fetchDemo []).exported.map
        CompRec.fileName).Nodup) := by
  refine ⟨by decide, by decide, by decide⟩

/-- C1 amended: the rebuilt export list is this run's records (kept verbatim,
in order) followed by scanned records whose file slugs are new; scanned
entries are deduplicated by slug against the run's records and each other;
slug membership in the result is exactly the union of the run's slugs and
the scannable slugs; and if the run's own records have pairwise distinct
slugs, the whole export list has no duplicate slugs.  (Duplicate export
identifiers from colliding symbol names, and duplicate slugs inside one run,
are possible — see the counterexample.) -/
theorem C1_export_union_amended :
    ∀ (fs : FS) (created : List CompRec),
      ((created.map CompRec.fileName).Nodup →
        ((buildAllComponents fs created).map CompRec.fileName).Nodup) ∧
      (∃ extra, buildAllComponents fs created = created ++ extra ∧
        (∀ r ∈ extra, r.fileName ∉ created.map CompRec.fileName) ∧
        (extra.map CompRec.fileName).Nodup) ∧
      (∀ x, x ∈ (buildAllComponents fs created).map CompRec.fileName ↔
        x ∈ created.map CompRec.fileName ∨ x ∈ scannedSlugs fs) := by
  intro fs created
  obtain ⟨extra, he, hnot, hnd, hiff⟩ := buildAllComponents_decomp fs created
  exact ⟨fun h => buildAllComponents_nodup fs created h, ⟨extra, he, hnot, hnd⟩, hiff⟩

/-- C1 witness: a run record merged with a pre-existing component file
yields a duplicate-free slug list. -/
theorem C1_export_union_witness :
    ((buildAllComponents demoExistingFS
      [⟨("Ab").data, ("ab").data, false, false⟩]).map CompRec.fileName).Nodup :=
  (C1_export_union_amended demoExistingFS [⟨("Ab").data, ("ab").data, false, false⟩]).1
    (by decide)

/-- C2: the base themed component defers the theme decision past mount
(initial render is light even under a dark resolved theme), but the themed
wordmark template computes `isDark` directly from `resolvedTheme` with no
`mounted` state at all, so its initial render already follows the ambient
theme — the code omits the deferral the spec prescribes for step 5. -/
theorem C2_wordmark_theme_not_deferred :
    themedSelect (("D").data) (("L").data) false (("dark").data) = (("L").data) ∧
    themedSelect (("D").data) (("L").data) true (("dark").data) = (("D").data) ∧
    wordmarkThemedSelect (("D").data) (("L").data) (("dark").data) = (("D").data) ∧
    containsChars (("const isDark = mounted && resolvedTheme === \x27dark\x27;").data)
      (themedTemplate (("X").data) (("<svg/>").data) (("<svg/>").data)) = true ∧
    containsChars (("mounted").data)
      (wordmarkThemedTemplate (("X").data) (("<svg/>").data) (("<svg/>").data)) = false ∧
    containsChars (("const isDark = resolvedTheme === \x27dark\x27;").data)
      (wordmarkThemedTemplate (("X").data) (("<svg/>").data) (("<svg/>").data)) = true := by
  refine ⟨by decide, by decide, by decide, by decide, by decide, by decide⟩

/-- C3: exact-match selection picks an icon iff some caller token, once
lowercased, equals the icon's file slug or its lowercased title — whole-token
equality, as the `github` / `GitHub Copilot` instances show. -/
theorem C3_exact_match_iff :
    (∀ (svgs : List ISVG) (args : List (List Char)) (svg : ISVG),
      svg ∈ selectSVGs svgs args ↔
        svg ∈ svgs ∧ ∃ t ∈ args, svgSlug svg.title = lowerChars t ∨
          lowerChars svg.title = lowerChars t) ∧
    matchesName svgGitHub (("github").data) = true ∧
    matchesName svgGitHubCopilot (("github").data) = false ∧
    svgGitHub ∈ selectSVGs [svgGitHub, svgGitHubCopilot] [("github").data] ∧
    svgGitHubCopilot ∉ selectSVGs [svgGitHub, svgGitHubCopilot] [("github").data] := by
  refine ⟨?_, by decide, by decide, by decide, by decide⟩
  intro svgs args svg
  unfold selectSVGs
  rw [List.mem_filter]
  simp only [List.any_eq_true, List.mem_map, matchesName, Bool.or_eq_true, decide_eq_true_eq]
  constructor
  · rintro ⟨hmem, n, ⟨t, ht, rfl⟩, hm⟩
    refine ⟨hmem, t, ht, ?_⟩
    rwa [lowerChars_idem] at hm
  · rintro ⟨hmem, t, ht, hm⟩
    refine ⟨hmem, ⟨lowerChars t, ⟨t, ht, rfl⟩, ?_⟩⟩
    rwa [lowerChars_idem]

/-- C3 witness: the general characterisation applied at the `github`
catalog. -/
theorem C3_exact_match_witness :
    svgGitHub ∈ selectSVGs [svgGitHub, svgGitHubCopilot] [("github").data] :=
  (C3_exact_match_iff.1 [svgGitHub, svgGitHubCopilot] [("github").data] svgGitHub).mpr
    ⟨by decide, ("github").data, by decide, by decide⟩

/-- C4: the sanitizer is trim followed by first-occurrence removal of the
fixed width and height attributes; on the spec's example neither
`width="24"` nor `height="24"` survives while `<path/>` does, and repeated
attributes keep their later occurrences. -/
theorem C4_sanitizer_first_occurrence :
    (∀ s : List Char, extractSvgContent s =
      removeFirstAttr (("height=\"").data) (removeFirstAttr (("width=\"").data) (trimChars s))) ∧
    extractSvgContent (("<svg width=\"24\" height=\"24\"><path/></svg>").data) =
      (("<svg  ><path/></svg>").data) ∧
    containsChars (("width=\"24\"").data)
      (extractSvgContent (("<svg width=\"24\" height=\"24\"><path/></svg>").data)) = false ∧
    containsChars (("height=\"24\"").data)
      (extractSvgContent (("<svg width=\"24\" height=\"24\"><path/></svg>").data)) = false ∧
    containsChars (("<path/>").data)
      (extractSvgContent (("<svg width=\"24\" height=\"24\"><path/></svg>").data)) = true ∧
    extractSvgContent (("  <svg width=\"1\" width=\"2\" height=\"3\" height=\"4\"/> ").data) =
      (("<svg  width=\"2\"  height=\"4\"/>").data) := by
  refine ⟨fun s => rfl, by decide, by decide, by decide, by decide, by decide⟩

/-- C5: the file-slug derivation is idempotent, and its output consists only
of lowercase alphanumerics and separators, with no adjacent separators and
no separator at either end.  (Determinism is immediate: `svgSlug` is a pure
function.) -/
theorem C5_slug_idempotent_shape :
    ∀ t : List Char,
      svgSlug (svgSlug t) = svgSlug t ∧
      (∀ c ∈ svgSlug t, isLowerAlnum c = true ∨ c = '-') ∧
      List.Chain' noDashPair (svgSlug t) ∧
      (svgSlug t).head? ≠ some '-' ∧ (svgSlug t).getLast? ≠ some '-' := by
  intro t
  obtain ⟨hc, hch, hh, hl⟩ := svgSlug_props t
  exact ⟨svgSlug_idem t, hc, hch, hh, hl⟩

/-- C5 witness: idempotence at a concrete messy title. -/
theorem C5_slug_witness :
    svgSlug (svgSlug (("--Hello,  World!--").data)) = svgSlug (("--Hello,  World!--").data) :=
  (C5_slug_idempotent_shape (("--Hello,  World!--").data)).1

/-- C8: a failed catalog fetch, and an empty catalog, both abort the command
with a console message, leave the directory untouched, and never reach
selection — the outcome does not depend on the tokens, the interactive pick,
or the markup oracle. -/
theorem C8_catalog_failure_aborts :
    ∀ (args : List (List Char)) (pick : List ISVG → List ISVG) (fetch : Fetch) (fs0 : FS),
      runAdd none args pick fetch fs0 = ⟨fs0, [], [], [msgFetchFail]⟩ ∧
      runAdd (some []) args pick fetch fs0 = ⟨fs0, [], [], [msgNoSvgs]⟩ :=
  fun args pick fetch fs0 =>
    ⟨runAdd_none args pick fetch fs0, runAdd_empty_catalog args pick fetch fs0⟩

/-- C6: a wordmark-bearing icon whose fetches succeed produces, besides the
base file, a wordmark component whose slug is the base slug suffixed
`-wordmark`, whose symbol is the base symbol suffixed `Wordmark`, recorded
with the wordmark flag set; the wordmark file defaults width to 100 and
height to 24, while the base file defaults width to 24. -/
theorem C6_wordmark_artifacts :
    ∀ (fetch : Fetch) (fs : FS) (svg : ISVG) (w : Route) (bc wc : List Char),
      svg.wordmark = some w →
      buildBaseContent fetch (componentNameOf svg.title) svg.route = some bc →
      buildWordmarkContent fetch (componentNameOf svg.title) w = some wc →
      processItem fetch fs svg =
        (writeFile (writeFile fs (svgSlug svg.title ++ (".tsx").data) bc)
          ((svgSlug svg.title ++ ("-wordmark").data) ++ (".tsx").data) wc,
         [⟨componentNameOf svg.title, svgSlug svg.title, isThemedRoute svg.route, false⟩,
          ⟨componentNameOf svg.title ++ ("Wordmark").data,
           svgSlug svg.title ++ ("-wordmark").data, isThemedRoute w, true⟩],
         false) ∧
      readFile (processItem fetch fs svg).1
          ((svgSlug svg.title ++ ("-wordmark").data) ++ (".tsx").data) = some wc ∧
      containsChars (("width = 100,").data) wc = true ∧
      containsChars (("height = 24,").data) wc = true ∧
      containsChars (("width = 24,").data) bc = true := by
  intro fetch fs svg w bc wc hw hb hwc
  have heq := processItem_eq_wm_ok fetch fs svg bc wc w hb hw hwc
  refine ⟨heq, ?_, (buildWordmarkContent_contains fetch _ w wc hwc).1,
    (buildWordmarkContent_contains fetch _ w wc hwc).2,
    buildBaseContent_contains_w24 fetch _ svg.route bc hb⟩
  rw [heq]
  exact readFile_writeFile_same _ _ _

/-- C6 witness: the wordmark file of a concrete icon is on disk with the
100-wide template. -/
theorem C6_wordmark_witness :
    readFile (processItem fetchDemo [] svgWithWordmark).1
        ((svgSlug (("Ab").data) ++ ("-wordmark").data) ++ (".tsx").data) =
      some (wordmarkSingleTemplate (componentNameOf (("Ab").data))
        (extractSvgContent (("<svg viewBox=\"0 0 24 24\"><path/></svg>").data))) :=
  (C6_wordmark_artifacts fetchDemo [] svgWithWordmark (Route.single (("u6").data))
    (singleTemplate (componentNameOf (("Ab").data))
      (extractSvgContent (("<svg viewBox=\"0 0 24 24\"><path/></svg>").data)))
    (wordmarkSingleTemplate (componentNameOf (("Ab").data))
      (extractSvgContent (("<svg viewBox=\"0 0 24 24\"><path/></svg>").data)))
    rfl rfl rfl).2.1

/-- C7: in exact-match mode with a non-empty selection, the run's records
are exactly the concatenation of each selected descriptor's own records
(independent of the directory state other items left behind), the error log
lists exactly the failing descriptors' titles in order, an item whose base
fetch fails contributes nothing, and the aggregate export file is rebuilt
and written from whatever succeeded. -/
theorem C7_per_item_isolation :
    ∀ (fetch : Fetch) (fs0 : FS) (svgs : List ISVG) (args : List (List Char))
      (pick : List ISVG → List ISVG),
      svgs ≠ [] → args ≠ [] → selectSVGs svgs args ≠ [] →
      (runAdd (some svgs) args pick fetch fs0).created =
        (selectSVGs svgs args).flatMap (recsOf fetch) ∧
      (runAdd (some svgs) args pick fetch fs0).errors =
        ((selectSVGs svgs args).filter (fun svg => errOf fetch svg)).map
          (fun svg => itemFailMsg svg.title) ∧
      (∀ svg : ISVG, buildBaseContent fetch (componentNameOf svg.title) svg.route = none →
        recsOf fetch svg = [] ∧ errOf fetch svg = true) ∧
      readFile (runAdd (some svgs) args pick fetch fs0).fs (("index.tsx").data) =
        some (indexContent (runAdd (some svgs) args pick fetch fs0).exported) := by
  intro fetch fs0 svgs args pick hne hargs hsel
  rw [runAdd_gen svgs args pick fetch fs0 hne hargs hsel]
  refine ⟨genLoop_created fetch _ fs0, genLoop_errors fetch _ fs0, ?_, ?_⟩
  · intro svg hb
    unfold recsOf errOf
    rw [processItem_eq_base_none fetch [] svg hb]
    exact ⟨rfl, rfl⟩
  · exact readFile_writeFile_same _ _ _

/-- C7 witness: one failing and one succeeding descriptor — exactly the
failing icon's title is logged. -/
theorem C7_per_item_witness :
    (runAdd (some [svgAb, svgBb]) [("ab").data, ("bb").data] id
      (fetchFailOn (("ub").data)) []).errors = [itemFailMsg (("Bb").data)] := by
  have h := (C7_per_item_isolation (fetchFailOn (("ub").data)) [] [svgAb, svgBb]
    [("ab").data, ("bb").data] id (by decide) (by decide) (by decide)).2.1
  rw [h]
  decide

/-- C9: in exact-match mode with a non-empty selection, a requested
(lowercased) token is reported as unmatched by the separate reporting pass
iff it matches no catalog icon under the selection filter's slug-or-title
equality. -/
theorem C9_unmatched_report_equiv :
    ∀ (svgs : List ISVG) (args : List (List Char)) (t : List Char),
      selectSVGs svgs args ≠ [] → t ∈ args.map lowerChars →
      (t ∈ notFoundOf svgs args ↔ ∀ svg ∈ svgs, matchesName svg t = false) := by
  intro svgs args t _ ht
  obtain ⟨a, ha, rfl⟩ := List.mem_map.mp ht
  have hidem := lowerChars_idem a
  unfold notFoundOf
  rw [List.mem_filter]
  constructor
  · rintro ⟨-, hflt⟩ svg hsvg
    rw [Bool.not_eq_true', List.any_eq_false] at hflt
    by_contra hm
    rw [Bool.not_eq_false] at hm
    have hsel : svg ∈ selectSVGs svgs args := by
      unfold selectSVGs
      rw [List.mem_filter]
      exact ⟨hsvg, List.any_eq_true.mpr ⟨lowerChars a, ht, hm⟩⟩
    unfold matchesName at hm
    rw [Bool.or_eq_true, decide_eq_true_eq, decide_eq_true_eq, hidem] at hm
    rcases hm with hm | hm
    · have hf : svgSlug svg.title ∈ foundNamesOf svgs args := by
        unfold foundNamesOf
        rw [List.mem_flatMap]
        exact ⟨svg, hsel, by simp⟩
      have hne := hflt _ hf
      rw [decide_eq_true_eq] at hne
      exact hne (by rw [hidem, hm])
    · have hf : lowerChars svg.title ∈ foundNamesOf svgs args := by
        unfold foundNamesOf
        rw [List.mem_flatMap]
        exact ⟨svg, hsel, by simp⟩
      have hne := hflt _ hf
      rw [decide_eq_true_eq] at hne
      exact hne (by rw [hidem, hm])
  · intro hall
    refine ⟨ht, ?_⟩
    rw [Bool.not_eq_true', List.any_eq_false]
    intro f hf
    rw [decide_eq_true_eq, hidem]
    intro heq
    unfold foundNamesOf at hf
    rw [List.mem_flatMap] at hf
    obtain ⟨svg, hsel, hfin⟩ := hf
    have hsvg : svg ∈ svgs := (List.mem_filter.mp hsel).1
    have hmf := hall svg hsvg
    unfold matchesName at hmf
    rw [Bool.or_eq_false_iff, decide_eq_false_iff_not, decide_eq_false_iff_not, hidem] at hmf
    simp only [List.mem_cons, List.mem_singleton, List.not_mem_nil, or_false] at hfin
    rcases hfin with rfl | rfl
    · exact hmf.2 heq
    · exact hmf.1 heq

/-- C9 witness: token `zzz` is reported unmatched in a catalog it matches
nothing in, while `github` is not reported. -/
theorem C9_unmatched_witness :
    ("zzz").data ∈ notFoundOf [svgGitHub, svgGitHubCopilot]
      [("github").data, ("zzz").data] :=
  (C9_unmatched_report_equiv [svgGitHub, svgGitHubCopilot]
    [("github").data, ("zzz").data] (("zzz").data) (by decide) (by decide)).mpr
    (by decide)

/-- C10: when the base fetch and write succeed but the wordmark fetch fails,
the per-item catch fires after the base file was written and its record
pushed: the base file and record survive (and the record reaches the rebuilt
aggregate export), while the wordmark file is absent — per-item failure is
not atomic over the whole item. -/
theorem C10_wordmark_failure_keeps_base :
    ∀ (fetch : Fetch) (fs0 : FS) (svg : ISVG) (w : Route) (bc : List Char),
      svg.wordmark = some w →
      buildBaseContent fetch (componentNameOf svg.title) svg.route = some bc →
      buildWordmarkContent fetch (componentNameOf svg.title) w = none →
      processItem fetch fs0 svg =
        (writeFile fs0 (svgSlug svg.title ++ (".tsx").data) bc,
         [⟨componentNameOf svg.title, svgSlug svg.title, isThemedRoute svg.route, false⟩],
         true) ∧
      readFile (processItem fetch fs0 svg).1 (svgSlug svg.title ++ (".tsx").data) = some bc ∧
      readFile (processItem fetch fs0 svg).1
          ((svgSlug svg.title ++ ("-wordmark").data) ++ (".tsx").data) =
        readFile fs0 ((svgSlug svg.title ++ ("-wordmark").data) ++ (".tsx").data) ∧
      (∀ fsx : FS,
        (⟨componentNameOf svg.title, svgSlug svg.title, isThemedRoute svg.route, false⟩ : CompRec) ∈
          buildAllComponents fsx (processItem fetch fs0 svg).2.1) := by
  intro fetch fs0 svg w bc hw hb hwc
  have heq := processItem_eq_wm_fail fetch fs0 svg bc w hb hw hwc
  refine ⟨heq, ?_, ?_, ?_⟩
  · rw [heq]
    exact readFile_writeFile_same _ _ _
  · rw [heq]
    apply readFile_writeFile_ne
    intro hk
    have hlen := congrArg List.length hk
    rw [List.length_append, List.length_append, List.length_append] at hlen
    have h9 : (("-wordmark").data).length = 9 := rfl
    rw [h9] at hlen
    omega
  · intro fsx
    apply mem_buildAllComponents_of_created
    rw [heq]
    exact List.mem_cons_self _ _

/-- C10 witness: a concrete icon whose wordmark URL fails — the base file
and record survive alone, with the error flag set. -/
theorem C10_wordmark_failure_witness :
    processItem (fetchFailOn (("u6").data)) [] svgWithWordmark =
      (writeFile [] (svgSlug (("Ab").data) ++ (".tsx").data)
        (singleTemplate (componentNameOf (("Ab").data))
          (extractSvgContent (("<svg><g/></svg>").data))),
       [⟨componentNameOf (("Ab").data), svgSlug (("Ab").data), false, false⟩],
       true) :=
  (C10_wordmark_failure_keeps_base (fetchFailOn (("u6").data)) [] svgWithWordmark
    (Route.single (("u6").data))
    (singleTemplate (componentNameOf (("Ab").data))
      (extractSvgContent (("<svg><g/></svg>").data)))
    rfl rfl rfl).1
